import Mathlib

/-!
Shallow embedding of the heart-rate ingestion pipeline of `carda-challenge`:
the batch accumulator (`QueueService`), the Redis extrema cache
(`RedisRepository`) and the batch processor (`VitalsService`).

Conventions of the embedding:
* TS `number` values that are used as integers (patient ids, bpm, thresholds)
  are modelled as `Int`; list lengths are coerced where the source compares
  them with a threshold.
* ISO-8601 timestamps are opaque `String`s; `new Date(ts)` round-trips through
  the ISO string, so a JS `Date` produced from a reading timestamp is modelled
  by that timestamp string itself.
* `new Date(ts).toISOString().split('T')[0]` is the date prefix of the
  timestamp, modelled by `dateOfTimestamp`.
* Redis hashes store strings; `toString` / `parseInt` on integers are
  modelled by `intToString` / `parseIntJS` below, with the round-trip proved.
* Effects are explicit state passing; each durable aggregate write bumps a
  write counter, which also serves as the logical clock for
  `createdAt` / `updatedAt`.
-/

/-- A validated heart-rate reading (`PostHeartRateData` in `db/schema`). -/
structure Reading where
  patientId : Int
  bpm : Int
  timestamp : String
deriving DecidableEq, Repr

/-- `new Date(ts).toISOString().split('T')[0]`: the calendar-date prefix of an
ISO-8601 UTC timestamp. -/
def dateOfTimestamp (ts : String) : String :=
  ⟨ts.data.takeWhile (fun c => c ≠ 'T')⟩

/-! ### Decimal printing and parsing (JS `toString` / `parseInt`) -/

/-- Digit value of a character, `c.charCodeAt(0) - 48`. -/
def digitVal (c : Char) : Nat := c.toNat - 48

/-- Decimal digits of `n`, least significant first.  The first argument is
fuel; `n + 1` is always enough since `n / 10` strictly decreases. -/
def toDigitsRev : Nat → Nat → List Char
  | 0, _ => []
  | fuel + 1, n =>
    if n < 10 then [Nat.digitChar n]
    else Nat.digitChar (n % 10) :: toDigitsRev fuel (n / 10)

/-- JS `Number.prototype.toString` on a natural number. -/
def natToString (n : Nat) : String := ⟨(toDigitsRev (n + 1) n).reverse⟩

/-- JS `Number.prototype.toString` on an integer. -/
def intToString (n : Int) : String :=
  if n < 0 then "-" ++ natToString n.natAbs else natToString n.natAbs

/-- Value of a digit string, least significant digit first. -/
def valRev : List Char → Nat
  | [] => 0
  | c :: cs => digitVal c + 10 * valRev cs

/-- Parse a most-significant-first digit string; `none` when empty or when a
non-digit occurs (JS `parseInt` would give `NaN` on the strings this
repository stores in those cases). -/
def parseDigits (l : List Char) : Option Nat :=
  if l = [] then none
  else if l.all Char.isDigit then
    some (l.foldl (fun a c => 10 * a + digitVal c) 0)
  else none

/-- Character-list form of `parseIntJS`. -/
def parseIntList : List Char → Option Int
  | [] => none
  | c :: rest =>
    if c = '-' then
      match parseDigits rest with
      | some v => some (-(v : Int))
      | none => none
    else
      match parseDigits (c :: rest) with
      | some v => some ((v : Int))
      | none => none

/-- JS `parseInt` restricted to the decimal-integer strings this repository
stores (an optional minus sign followed by digits); `none` models `NaN`. -/
def parseIntJS (s : String) : Option Int := parseIntList s.data

theorem digitVal_digitChar {d : Nat} (h : d < 10) :
    digitVal (Nat.digitChar d) = d := by
  interval_cases d <;> decide

theorem isDigit_digitChar {d : Nat} (h : d < 10) :
    (Nat.digitChar d).isDigit = true := by
  interval_cases d <;> decide

theorem toDigitsRev_spec :
    ∀ (fuel n : Nat), n < fuel →
      valRev (toDigitsRev fuel n) = n ∧
      (toDigitsRev fuel n).all Char.isDigit = true ∧
      toDigitsRev fuel n ≠ [] := by
  intro fuel
  induction fuel with
  | zero => intro n h; omega
  | succ f ih =>
    intro n h
    by_cases h10 : n < 10
    · simp [toDigitsRev, h10, valRev, digitVal_digitChar h10, isDigit_digitChar h10]
    · have hdiv : n / 10 < f := by
        have : n / 10 < n := Nat.div_lt_self (by omega) (by omega)
        omega
      obtain ⟨hval, hdig, _⟩ := ih (n / 10) hdiv
      refine ⟨?_, ?_, by simp [toDigitsRev, h10]⟩
      · simp only [toDigitsRev, if_neg h10, valRev, hval,
          digitVal_digitChar (Nat.mod_lt n (by omega))]
        omega
      · simp only [toDigitsRev, if_neg h10, List.all_cons, hdig,
          isDigit_digitChar (Nat.mod_lt n (by omega)), Bool.and_true]

theorem foldl_digits_reverse (l : List Char) (a : Nat) :
    l.reverse.foldl (fun a c => 10 * a + digitVal c) a =
      a * 10 ^ l.length + valRev l := by
  induction l generalizing a with
  | nil => simp [valRev]
  | cons c t ih =>
    simp only [List.reverse_cons, List.foldl_append, List.foldl_cons,
      List.foldl_nil, ih, valRev, List.length_cons]
    ring

theorem parseDigits_reverse_toDigitsRev (n : Nat) :
    parseDigits (toDigitsRev (n + 1) n).reverse = some n := by
  obtain ⟨hval, hdig, hne⟩ := toDigitsRev_spec (n + 1) n (Nat.lt_succ_self n)
  have hne' : (toDigitsRev (n + 1) n).reverse ≠ [] := by
    simpa using hne
  have hdig' : (toDigitsRev (n + 1) n).reverse.all Char.isDigit = true := by
    rw [List.all_eq_true] at hdig ⊢
    intro c hc
    exact hdig c (List.mem_reverse.mp hc)
  rw [parseDigits, if_neg hne', if_pos hdig', foldl_digits_reverse]
  simp [hval]

theorem natToString_data (n : Nat) :
    (natToString n).data = (toDigitsRev (n + 1) n).reverse := rfl

theorem natToString_head_isDigit (n : Nat) :
    ∀ c, c ∈ (natToString n).data → c.isDigit = true := by
  intro c hc
  obtain ⟨_, hdig, _⟩ := toDigitsRev_spec (n + 1) n (Nat.lt_succ_self n)
  rw [natToString_data] at hc
  exact (List.all_eq_true.mp hdig) c (List.mem_reverse.mp hc)

theorem parseIntJS_intToString (n : Int) : parseIntJS (intToString n) = some n := by
  by_cases hn : n < 0
  · have hdata : (intToString n).data = '-' :: (toDigitsRev (n.natAbs + 1) n.natAbs).reverse := by
      simp [intToString, if_pos hn, String.data_append, natToString]
    rw [parseIntJS, hdata, parseIntList, if_pos rfl, parseDigits_reverse_toDigitsRev]
    show some (-((n.natAbs : Nat) : Int)) = some n
    rw [show -((n.natAbs : Nat) : Int) = n by omega]
  · obtain ⟨hval, hdig, hne⟩ :=
      toDigitsRev_spec (n.natAbs + 1) n.natAbs (Nat.lt_succ_self _)
    have hdata : (intToString n).data = (natToString n.natAbs).data := by
      simp [intToString, if_neg hn]
    rw [parseIntJS, hdata]
    cases hcase : (natToString n.natAbs).data with
    | nil =>
      exfalso
      apply hne
      have := congrArg List.reverse hcase
      simpa [natToString_data] using this
    | cons c t =>
      have hcdig : c.isDigit = true := by
        apply natToString_head_isDigit n.natAbs
        rw [hcase]; exact List.mem_cons_self _ _
      have hcne : c ≠ '-' := by
        intro heq; rw [heq] at hcdig; exact absurd hcdig (by decide)
      have hp : parseDigits (c :: t) = some n.natAbs := by
        rw [← hcase, natToString_data, parseDigits_reverse_toDigitsRev]
      rw [parseIntList, if_neg hcne, hp]
      show some (((n.natAbs : Nat) : Int)) = some n
      rw [show (((n.natAbs : Nat) : Int)) = n by omega]

theorem intToString_ne_empty (n : Int) : intToString n ≠ "" := by
  obtain ⟨_, _, hne⟩ := toDigitsRev_spec (n.natAbs + 1) n.natAbs (Nat.lt_succ_self _)
  by_cases hn : n < 0
  · simp only [intToString, if_pos hn]
    intro h
    have := congrArg String.data h
    simp [String.data_append] at this
  · simp only [intToString, if_neg hn]
    intro h
    have := congrArg String.data h
    rw [natToString_data] at this
    apply hne
    simpa using congrArg List.reverse this

/-! ### Redis extrema cache (`RedisRepository`, `src/db/redis-repository`) -/

/-- A Redis hash as used by the daily min/max cache: the only fields ever
written are `min`, `max`, `minTime`, `maxTime` (strings), plus the key TTL set
by `expire`.  A field that was never written is `none` (JS `undefined`). -/
structure RedisHash where
  min : Option String := none
  max : Option String := none
  minTime : Option String := none
  maxTime : Option String := none
  ttl : Option Int := none
deriving DecidableEq, Repr

/-- The Redis keyspace: `hgetall` on an unknown key yields the empty hash. -/
def RedisStore := String → RedisHash

/-- The empty keyspace. -/
def emptyRedis : RedisStore := fun _ => {}

/-- Write the whole hash at `key` (the effect of an `hset`/`expire` pipeline
after merging with the pre-existing hash). -/
def setHash (key : String) (h : RedisHash) (store : RedisStore) : RedisStore :=
  fun k => if k = key then h else store k

/-- JS truthiness of an optional string: `undefined` and `""` are falsy. -/
def jsTruthy : Option String → Bool
  | none => false
  | some s => s ≠ ""

/-- `parseInt` applied to an optional hash field; `0` stands for the `NaN`
that never arises on the strings this pipeline stores. -/
def parseHashInt (s : Option String) : Int :=
  (parseIntJS (s.getD "")).getD 0

/-- The cache entry interface returned by `getDailyMinMax`
(`HeartRateAggregate` in `redis-repository`). -/
structure HeartRateAggregate where
  min : Int
  max : Int
  minTime : String
  maxTime : String
deriving DecidableEq, Repr

/-- `daily_min_max:{patientId}:{date}`. -/
def dailyMinMaxKey (patientId : Int) (date : String) : String :=
  "daily_min_max:" ++ intToString patientId ++ ":" ++ date

/-- `RedisRepository.getDailyMinMax`: `hgetall`, return `null` unless both
`min` and `max` are truthy, else parse the numbers. -/
def getDailyMinMax (patientId : Int) (date : String) (store : RedisStore) :
    Option HeartRateAggregate :=
  let data := store (dailyMinMaxKey patientId date)
  if jsTruthy data.min && jsTruthy data.max then
    some { min := parseHashInt data.min
           max := parseHashInt data.max
           minTime := data.minTime.getD ""
           maxTime := data.maxTime.getD "" }
  else none

/-- `RedisRepository.setDailyMinMax`: `hset` all four fields and refresh the
TTL, in one pipeline. -/
def setDailyMinMax (patientId : Int) (date : String) (min max : Int)
    (minTime maxTime : String) (ttlSeconds : Int) (store : RedisStore) :
    RedisStore :=
  let key := dailyMinMaxKey patientId date
  let h := store key
  setHash key
    { h with min := some (intToString min), max := some (intToString max),
             minTime := some minTime, maxTime := some maxTime,
             ttl := some ttlSeconds } store

/-- `RedisRepository.updateDailyMin`: `hset` only `min`/`minTime` and refresh
the TTL. -/
def updateDailyMin (patientId : Int) (date : String) (min : Int)
    (minTime : String) (ttlSeconds : Int) (store : RedisStore) : RedisStore :=
  let key := dailyMinMaxKey patientId date
  let h := store key
  setHash key
    { h with min := some (intToString min), minTime := some minTime,
             ttl := some ttlSeconds } store

/-- `RedisRepository.updateDailyMax`: `hset` only `max`/`maxTime` and refresh
the TTL. -/
def updateDailyMax (patientId : Int) (date : String) (max : Int)
    (maxTime : String) (ttlSeconds : Int) (store : RedisStore) : RedisStore :=
  let key := dailyMinMaxKey patientId date
  let h := store key
  setHash key
    { h with max := some (intToString max), maxTime := some maxTime,
             ttl := some ttlSeconds } store

theorem jsTruthy_intToString (n : Int) : jsTruthy (some (intToString n)) = true := by
  simp [jsTruthy, intToString_ne_empty n]

theorem parseHashInt_intToString (n : Int) :
    parseHashInt (some (intToString n)) = n := by
  simp [parseHashInt, parseIntJS_intToString]

/-- Reading back a full write returns exactly what was written. -/
theorem getDailyMinMax_setDailyMinMax (patientId : Int) (date : String)
    (mn mx : Int) (tn tx : String) (ttl : Int) (store : RedisStore) :
    getDailyMinMax patientId date
      (setDailyMinMax patientId date mn mx tn tx ttl store) =
      some ⟨mn, mx, tn, tx⟩ := by
  simp [getDailyMinMax, setDailyMinMax, setHash, jsTruthy_intToString,
    parseHashInt_intToString]

/-- A partial `min` update only changes the `min` side of what is read back. -/
theorem getDailyMinMax_updateDailyMin (patientId : Int) (date : String)
    (mn : Int) (tn : String) (ttl : Int) (store : RedisStore) (cur : HeartRateAggregate)
    (h : getDailyMinMax patientId date store = some cur) :
    getDailyMinMax patientId date
      (updateDailyMin patientId date mn tn ttl store) =
      some ⟨mn, cur.max, tn, cur.maxTime⟩ := by
  unfold getDailyMinMax at h
  by_cases hc : jsTruthy (store (dailyMinMaxKey patientId date)).min &&
      jsTruthy (store (dailyMinMaxKey patientId date)).max
  · rw [if_pos hc] at h
    obtain ⟨hmx, hxt⟩ : parseHashInt (store (dailyMinMaxKey patientId date)).max = cur.max ∧
        ((store (dailyMinMaxKey patientId date)).maxTime).getD "" = cur.maxTime := by
      have := Option.some.inj h
      exact ⟨congrArg HeartRateAggregate.max this, congrArg HeartRateAggregate.maxTime this⟩
    have hmaxT : jsTruthy (store (dailyMinMaxKey patientId date)).max = true := by
      simp only [Bool.and_eq_true] at hc
      exact hc.2
    simp [getDailyMinMax, updateDailyMin, setHash, jsTruthy_intToString,
      parseHashInt_intToString, hmaxT, hmx, hxt]
  · rw [if_neg hc] at h
    exact absurd h (by simp)

/-- A partial `max` update only changes the `max` side of what is read back. -/
theorem getDailyMinMax_updateDailyMax (patientId : Int) (date : String)
    (mx : Int) (tx : String) (ttl : Int) (store : RedisStore) (cur : HeartRateAggregate)
    (h : getDailyMinMax patientId date store = some cur) :
    getDailyMinMax patientId date
      (updateDailyMax patientId date mx tx ttl store) =
      some ⟨cur.min, mx, cur.minTime, tx⟩ := by
  unfold getDailyMinMax at h
  by_cases hc : jsTruthy (store (dailyMinMaxKey patientId date)).min &&
      jsTruthy (store (dailyMinMaxKey patientId date)).max
  · rw [if_pos hc] at h
    obtain ⟨hmn, hnt⟩ : parseHashInt (store (dailyMinMaxKey patientId date)).min = cur.min ∧
        ((store (dailyMinMaxKey patientId date)).minTime).getD "" = cur.minTime := by
      have := Option.some.inj h
      exact ⟨congrArg HeartRateAggregate.min this, congrArg HeartRateAggregate.minTime this⟩
    have hminT : jsTruthy (store (dailyMinMaxKey patientId date)).min = true := by
      simp only [Bool.and_eq_true] at hc
      exact hc.1
    simp [getDailyMinMax, updateDailyMax, setHash, jsTruthy_intToString,
      parseHashInt_intToString, hminT, hmn, hnt]
  · rw [if_neg hc] at h
    exact absurd h (by simp)

/-! ### Batch processor (`VitalsService`) -/

/-- A durable `heart_rate_aggregates` row.  `createdAt`/`updatedAt` are
modelled by the value of the aggregate-write counter at the writing moment,
which is strictly monotone, so a row rewrite always changes `updatedAt`. -/
structure AggRow where
  bpmMin : Int
  bpmMinRecordedAt : String
  bpmMax : Int
  bpmMaxRecordedAt : String
  createdAt : Nat
  updatedAt : Nat
deriving DecidableEq, Repr

/-- State touched by `VitalsService`: the Redis keyspace, the
`heart_rate_aggregates` table keyed by (patientId, date), the append-only
`heart_rate_records` table, the aggregate-write counter, and the ambient
value of `getSecondsUntilEndOfNextDay()` (a pure function of the wall clock,
which the embedding carries as data). -/
structure VitalsState where
  redis : RedisStore
  aggregates : List ((Int × String) × AggRow)
  rawRecords : List Reading
  aggWrites : Nat
  ttlNow : Int

/-- `db.select().from(heartRateAggregates).where(patientId, date)`. -/
def lookupAggregate (patientId : Int) (date : String)
    (rows : List ((Int × String) × AggRow)) : Option AggRow :=
  (rows.find? (fun p => p.1 = (patientId, date))).map (fun p => p.2)

/-- `VitalsService.upsertHeartRateAggregate`: update the row for
(patientId, date) in place when it exists, insert it otherwise. -/
def upsertHeartRateAggregate (patientId : Int) (date : String)
    (bpmMin : Int) (bpmMinRecordedAt : String)
    (bpmMax : Int) (bpmMaxRecordedAt : String) (st : VitalsState) : VitalsState :=
  let tick := st.aggWrites + 1
  match lookupAggregate patientId date st.aggregates with
  | some row =>
    { st with
      aggregates := st.aggregates.map (fun p =>
        if p.1 = (patientId, date) then
          (p.1, { row with
                  bpmMin := bpmMin, bpmMinRecordedAt := bpmMinRecordedAt,
                  bpmMax := bpmMax, bpmMaxRecordedAt := bpmMaxRecordedAt,
                  updatedAt := tick })
        else p)
      aggWrites := tick }
  | none =>
    { st with
      aggregates := st.aggregates ++
        [((patientId, date),
          ⟨bpmMin, bpmMinRecordedAt, bpmMax, bpmMaxRecordedAt, tick, tick⟩)]
      aggWrites := tick }

/-- Running extrema of a batch partition (`minBpm`/`maxBpm` with the
timestamps of the readings that set them). -/
structure Extrema where
  minBpm : Int
  maxBpm : Int
  minTime : String
  maxTime : String
deriving DecidableEq, Repr

/-- One iteration of the extrema scan in
`updateDailyMinMaxCacheForBatch` (strict comparisons, first occurrence
wins ties). -/
def extremaStep (acc : Extrema) (r : Reading) : Extrema :=
  let acc1 :=
    if r.bpm < acc.minBpm then
      { acc with minBpm := r.bpm, minTime := r.timestamp }
    else acc
  if r.bpm > acc1.maxBpm then
    { acc1 with maxBpm := r.bpm, maxTime := r.timestamp }
  else acc1

/-- The partition-local extrema: seeded from `readings[0]`, then one scan
over the whole list, exactly as the source loop does. -/
def batchExtremaOf : List Reading → Option Extrema
  | [] => none
  | r0 :: rest =>
    some ((r0 :: rest).foldl extremaStep ⟨r0.bpm, r0.bpm, r0.timestamp, r0.timestamp⟩)

/-- `VitalsService.updateDailyMinMaxCacheForBatch`: reconcile the partition
extrema with the cache, then (unconditionally, as written) upsert the
aggregate row with the partition-local extrema. -/
def updateDailyMinMaxCacheForBatch (patientId : Int) (date : String)
    (readings : List Reading) (st : VitalsState) : VitalsState :=
  match readings with
  | [] => st
  | r0 :: rest =>
    let current := getDailyMinMax patientId date st.redis
    let ttlSeconds := st.ttlNow
    let ex := (r0 :: rest).foldl extremaStep ⟨r0.bpm, r0.bpm, r0.timestamp, r0.timestamp⟩
    let st1 :=
      match current with
      | none =>
        let redis2 :=
          setDailyMinMax patientId date ex.minBpm ex.maxBpm ex.minTime ex.maxTime
            ttlSeconds st.redis
        { st with redis := redis2 }
      | some current =>
        if ex.minBpm < current.min ∨ ex.maxBpm > current.max then
          let finalMin := if ex.minBpm < current.min then ex.minBpm else current.min
          let finalMax := if ex.maxBpm > current.max then ex.maxBpm else current.max
          let finalMinTime := if ex.minBpm < current.min then ex.minTime else current.minTime
          let finalMaxTime := if ex.maxBpm > current.max then ex.maxTime else current.maxTime
          let redis2 :=
            setDailyMinMax patientId date finalMin finalMax finalMinTime finalMaxTime
              ttlSeconds st.redis
          { st with redis := redis2 }
        else st
    upsertHeartRateAggregate patientId date ex.minBpm ex.minTime ex.maxBpm ex.maxTime st1

/-- JS `Map` grouping by the template key `` `${patientId}_${date}` `` in
insertion order.  The key string and the pair (patientId, date) are in
bijection for the ids and dashed dates this pipeline uses (a date contains no
underscore and `parseInt` inverts `toString` on the id, see
`parseIntJS_intToString`), so the embedding groups by the pair directly. -/
def groupByPatientAndDate (readings : List Reading) :
    List ((Int × String) × List Reading) :=
  readings.foldl (fun acc r =>
    let key := (r.patientId, dateOfTimestamp r.timestamp)
    if acc.any (fun p => p.1 = key) then
      acc.map (fun p => if p.1 = key then (p.1, p.2 ++ [r]) else p)
    else acc ++ [(key, [r])]) []

/-- `VitalsService.processHeartRateBatch`: partition by (patientId, date),
bulk-insert the raw readings of each partition, then reconcile the cache and
aggregates for the partition. -/
def processHeartRateBatch (readings : List Reading) (st : VitalsState) : VitalsState :=
  if readings = [] then st
  else
    (groupByPatientAndDate readings).foldl (fun acc g =>
      let acc1 := { acc with rawRecords := acc.rawRecords ++ g.2 }
      updateDailyMinMaxCacheForBatch g.1.1 g.1.2 g.2 acc1) st

/-- `VitalsService.updateDailyMinMaxCache` (single-reading path): returns the
post-reconciliation extrema, or `null` when the reading is inside the cached
range. -/
def updateDailyMinMaxCache (patientId : Int) (date : String) (bpm : Int)
    (timestamp : String) (st : VitalsState) : VitalsState × Option HeartRateAggregate :=
  let current := getDailyMinMax patientId date st.redis
  let ttlSeconds := st.ttlNow
  match current with
  | none =>
    let redis2 :=
      setDailyMinMax patientId date bpm bpm timestamp timestamp ttlSeconds st.redis
    ({ st with redis := redis2 }, some ⟨bpm, bpm, timestamp, timestamp⟩)
  | some current =>
    if ¬bpm < current.min ∧ ¬bpm > current.max then (st, none)
    else
      let redis1 :=
        if bpm < current.min then updateDailyMin patientId date bpm timestamp ttlSeconds st.redis
        else st.redis
      let redis2 :=
        if bpm > current.max then updateDailyMax patientId date bpm timestamp ttlSeconds redis1
        else redis1
      ({ st with redis := redis2 },
       some ⟨(if bpm < current.min then bpm else current.min),
             (if bpm > current.max then bpm else current.max),
             (if bpm < current.min then timestamp else current.minTime),
             (if bpm > current.max then timestamp else current.maxTime)⟩)

/-- `VitalsService.processHeartRateReading`: insert the raw reading, reconcile
the cache, and upsert the aggregate only when the cache reported a change. -/
def processHeartRateReading (data : Reading) (st : VitalsState) : VitalsState :=
  let date := dateOfTimestamp data.timestamp
  let st1 := { st with rawRecords := st.rawRecords ++ [data] }
  let res := updateDailyMinMaxCache data.patientId date data.bpm data.timestamp st1
  match res.2 with
  | none => res.1
  | some d => upsertHeartRateAggregate data.patientId date d.min d.minTime d.max d.maxTime res.1

/-! ### Batch accumulator (`QueueService`) -/

/-- In-memory accumulator state plus the trace of enqueued batch jobs.
`batchTimeoutActive` mirrors `this.batchTimeout !== null`; the 500 ms idle
timer and 2 s interval only ever call `flushHeartRateBatch`, and in the
rapid-submission scenarios modelled here they do not fire. -/
structure QueueState where
  heartRateBatch : List Reading
  batchSize : Int
  batchTimeoutActive : Bool
  jobs : List (List Reading)

def MAX_BATCH_SIZE : Int := 1000

/-- `QueueService.addHeartRateBatchJob`: enqueue a non-empty batch.  `ok`
models whether `heartRateQueue.add` succeeds; on failure (a thrown rejection)
no job is enqueued. -/
def addHeartRateBatchJob (ok : Bool) (readings : List Reading)
    (st : QueueState) : QueueState :=
  if readings = [] then st
  else if ok then { st with jobs := st.jobs ++ [readings] } else st

/-- `QueueService.flushHeartRateBatch`: swap the buffer for an empty one,
clear the idle timer, and enqueue the swapped-out batch; an enqueue error is
caught and only logged. -/
def flushHeartRateBatch (ok : Bool) (st : QueueState) : QueueState :=
  if st.heartRateBatch = [] then st
  else
    let batchToProcess := st.heartRateBatch
    let st1 := { st with heartRateBatch := [], batchTimeoutActive := false }
    addHeartRateBatchJob ok batchToProcess st1

/-- `QueueService.addHeartRateJob`: append the reading, flush when the buffer
has reached the threshold, otherwise (re)arm the idle timer. -/
def addHeartRateJob (ok : Bool) (data : Reading) (st : QueueState) : QueueState :=
  let st1 := { st with heartRateBatch := st.heartRateBatch ++ [data] }
  if (st1.heartRateBatch.length : Int) ≥ st1.batchSize then
    flushHeartRateBatch ok st1
  else
    { st1 with batchTimeoutActive := true }

/-- A sequence of rapid submissions (no timer fires in between). -/
def submitAll (ok : Bool) (readings : List Reading) (st : QueueState) : QueueState :=
  readings.foldl (fun acc r => addHeartRateJob ok r acc) st

/-- `QueueService.updateBatchSize`: validate the new threshold (throwing
before any mutation), set it, and flush immediately when the buffer already
meets it. -/
def updateBatchSize (newSize : Int) (ok : Bool) (st : QueueState) :
    Except String QueueState :=
  if newSize < 1 ∨ newSize > MAX_BATCH_SIZE then
    .error ("Batch size must be between 1 and " ++ intToString MAX_BATCH_SIZE)
  else
    let st1 := { st with batchSize := newSize }
    if (st1.heartRateBatch.length : Int) ≥ st1.batchSize then
      .ok (flushHeartRateBatch ok st1)
    else .ok st1

/-! ### Basic facts about the embedded operations -/

theorem upsertHeartRateAggregate_redis (patientId : Int) (date : String)
    (a : Int) (b : String) (c : Int) (d : String) (st : VitalsState) :
    (upsertHeartRateAggregate patientId date a b c d st).redis = st.redis := by
  unfold upsertHeartRateAggregate
  cases lookupAggregate patientId date st.aggregates <;> rfl

theorem upsertHeartRateAggregate_aggWrites (patientId : Int) (date : String)
    (a : Int) (b : String) (c : Int) (d : String) (st : VitalsState) :
    (upsertHeartRateAggregate patientId date a b c d st).aggWrites = st.aggWrites + 1 := by
  unfold upsertHeartRateAggregate
  cases lookupAggregate patientId date st.aggregates <;> rfl

/-! ### Concrete fixtures for the concrete-execution theorems -/

def r60 : Reading := ⟨1, 60, "2024-01-15T08:00:00.000Z"⟩
def r90 : Reading := ⟨1, 90, "2024-01-15T09:00:00.000Z"⟩
def r75 : Reading := ⟨1, 75, "2024-01-15T10:00:00.000Z"⟩

/-- An initial pipeline state: empty cache, no aggregate rows, no raw rows. -/
def vempty : VitalsState := ⟨emptyRedis, [], [], 0, 0⟩

/-! ### C1 -/

/-- C1: the spec claims that after the batch processor has fully processed all
readings of a (patient, day) — in one or more batches — the Aggregate Row's
`bpmMin` equals the true minimum over all those readings.  The code violates
this as soon as two batches are involved: after batch `[r60]` and then batch
`[r90]` (same patient and day, true minimum 60), the Aggregate Row's `bpmMin`
is 90, the second batch's local minimum, because
`updateDailyMinMaxCacheForBatch` unconditionally upserts the partition-local
extrema.  The cache itself still holds the correct entry 60/90. -/
theorem c1_aggregate_misses_true_min_across_batches :
    (processHeartRateBatch [r90] (processHeartRateBatch [r60] vempty)).rawRecords =
      [r60, r90] ∧
    (∃ r ∈ [r60, r90], r.bpm = 60) ∧ (∀ r ∈ [r60, r90], 60 ≤ r.bpm) ∧
    getDailyMinMax 1 "2024-01-15"
      (processHeartRateBatch [r90] (processHeartRateBatch [r60] vempty)).redis =
      some ⟨60, 90, "2024-01-15T08:00:00.000Z", "2024-01-15T09:00:00.000Z"⟩ ∧
    (lookupAggregate 1 "2024-01-15"
      (processHeartRateBatch [r90] (processHeartRateBatch [r60] vempty)).aggregates).map
        AggRow.bpmMin = some 90 := by
  decide

/-! ### C2 -/

/-- C2: the spec claims that a batch partition in which no reading is strictly
below the cached min or strictly above the cached max performs no cache write
and no durable aggregate write.  The code does skip the cache write, but
always performs the aggregate upsert: processing `[r75]` against cached
extrema 60/90 leaves the cache untouched yet performs a durable write that
sets the Aggregate Row to 75/75. -/
theorem c2_inrange_batch_still_writes_aggregate :
    getDailyMinMax 1 "2024-01-15" (processHeartRateBatch [r60, r90] vempty).redis =
      some ⟨60, 90, "2024-01-15T08:00:00.000Z", "2024-01-15T09:00:00.000Z"⟩ ∧
    getDailyMinMax 1 "2024-01-15"
        (processHeartRateBatch [r75] (processHeartRateBatch [r60, r90] vempty)).redis =
      getDailyMinMax 1 "2024-01-15" (processHeartRateBatch [r60, r90] vempty).redis ∧
    (processHeartRateBatch [r75] (processHeartRateBatch [r60, r90] vempty)).aggWrites =
      (processHeartRateBatch [r60, r90] vempty).aggWrites + 1 ∧
    (lookupAggregate 1 "2024-01-15"
      (processHeartRateBatch [r75] (processHeartRateBatch [r60, r90] vempty)).aggregates).map
        AggRow.bpmMin = some 75 := by
  decide

/-! ### C3 -/

/-- C3: the spec claims every aggregate upsert writes exactly the cache's
post-reconciliation min/max.  In the batch path the upsert instead receives
the partition-local extrema: after the in-range batch `[r75]`, the cache's
reconciled minimum is still 60 while the row was rewritten with
`bpmMin = 75`, `bpmMax = 75`. -/
theorem c3_upsert_uses_local_not_reconciled_extrema :
    (getDailyMinMax 1 "2024-01-15"
        (processHeartRateBatch [r75] (processHeartRateBatch [r60, r90] vempty)).redis).map
      HeartRateAggregate.min = some 60 ∧
    (lookupAggregate 1 "2024-01-15"
      (processHeartRateBatch [r75] (processHeartRateBatch [r60, r90] vempty)).aggregates).map
        AggRow.bpmMin = some 75 ∧
    (lookupAggregate 1 "2024-01-15"
      (processHeartRateBatch [r75] (processHeartRateBatch [r60, r90] vempty)).aggregates).map
        AggRow.bpmMax = some 75 := by
  decide

/-! ### C4 -/

/-- C4: the spec claims reprocessing an already-fully-reconciled batch leaves
the cache entry and the Aggregate Row (all fields) unchanged with no spurious
writes.  Replaying the batch `[r60, r90]` indeed leaves the cache untouched,
but performs another durable aggregate write: the write counter advances and
the row's `updatedAt` changes from 1 to 2. -/
theorem c4_replay_performs_spurious_aggregate_write :
    getDailyMinMax 1 "2024-01-15"
        (processHeartRateBatch [r60, r90] (processHeartRateBatch [r60, r90] vempty)).redis =
      getDailyMinMax 1 "2024-01-15" (processHeartRateBatch [r60, r90] vempty).redis ∧
    (processHeartRateBatch [r60, r90] vempty).aggWrites = 1 ∧
    (processHeartRateBatch [r60, r90] (processHeartRateBatch [r60, r90] vempty)).aggWrites = 2 ∧
    (lookupAggregate 1 "2024-01-15"
      (processHeartRateBatch [r60, r90] vempty).aggregates).map AggRow.updatedAt = some 1 ∧
    (lookupAggregate 1 "2024-01-15"
      (processHeartRateBatch [r60, r90]
        (processHeartRateBatch [r60, r90] vempty)).aggregates).map AggRow.updatedAt = some 2 := by
  decide

/-! ### C5 -/

/-- C5: when no cache entry exists for the partition's (patientId, date),
processing the partition seeds the cache with the partition-local extrema and
performs exactly one durable aggregate write. -/
theorem c5_first_of_day_seeds_and_writes_once (patientId : Int) (date : String)
    (r0 : Reading) (rest : List Reading) (st : VitalsState)
    (h : getDailyMinMax patientId date st.redis = none) :
    ∃ ex, batchExtremaOf (r0 :: rest) = some ex ∧
      getDailyMinMax patientId date
        (updateDailyMinMaxCacheForBatch patientId date (r0 :: rest) st).redis =
        some ⟨ex.minBpm, ex.maxBpm, ex.minTime, ex.maxTime⟩ ∧
      (updateDailyMinMaxCacheForBatch patientId date (r0 :: rest) st).aggWrites =
        st.aggWrites + 1 := by
  refine ⟨(r0 :: rest).foldl extremaStep ⟨r0.bpm, r0.bpm, r0.timestamp, r0.timestamp⟩,
    rfl, ?_, ?_⟩
  · unfold updateDailyMinMaxCacheForBatch
    rw [h]
    rw [upsertHeartRateAggregate_redis]
    exact getDailyMinMax_setDailyMinMax patientId date _ _ _ _ _ _
  · unfold updateDailyMinMaxCacheForBatch
    rw [h]
    rw [upsertHeartRateAggregate_aggWrites]

theorem c5_witness :
    getDailyMinMax 1 "2024-01-15" vempty.redis = none ∧
    (∃ ex, batchExtremaOf [r60] = some ex ∧
      getDailyMinMax 1 "2024-01-15"
        (updateDailyMinMaxCacheForBatch 1 "2024-01-15" [r60] vempty).redis =
        some ⟨ex.minBpm, ex.maxBpm, ex.minTime, ex.maxTime⟩ ∧
      (updateDailyMinMaxCacheForBatch 1 "2024-01-15" [r60] vempty).aggWrites =
        vempty.aggWrites + 1) :=
  ⟨by decide, c5_first_of_day_seeds_and_writes_once 1 "2024-01-15" r60 [] vempty (by decide)⟩

/-! ### C10 -/

/-- C10: writing a daily min/max entry and reading it back with no
intervening write returns exactly the stored values, never absent. -/
theorem c10_cache_roundtrip (patientId : Int) (date : String) (mn mx : Int)
    (tn tx : String) (ttl : Int) (store : RedisStore)
    (_h1 : tn ≠ "") (_h2 : tx ≠ "") :
    getDailyMinMax patientId date
        (setDailyMinMax patientId date mn mx tn tx ttl store) =
      some ⟨mn, mx, tn, tx⟩ :=
  getDailyMinMax_setDailyMinMax patientId date mn mx tn tx ttl store

theorem c10_witness :
    ("2024-01-15T08:00:00.000Z" ≠ "" ∧ "2024-01-15T09:00:00.000Z" ≠ "") ∧
    getDailyMinMax 1 "2024-01-15"
        (setDailyMinMax 1 "2024-01-15" 60 90 "2024-01-15T08:00:00.000Z"
          "2024-01-15T09:00:00.000Z" 86400 emptyRedis) =
      some ⟨60, 90, "2024-01-15T08:00:00.000Z", "2024-01-15T09:00:00.000Z"⟩ :=
  ⟨⟨by decide, by decide⟩,
   c10_cache_roundtrip 1 "2024-01-15" 60 90 "2024-01-15T08:00:00.000Z"
     "2024-01-15T09:00:00.000Z" 86400 emptyRedis (by decide) (by decide)⟩

/-! ### C6 -/

/-- Submitting enough readings to exactly reach the threshold, starting from
any buffer, flushes exactly once with the whole buffer contents. -/
theorem submitAll_reaches_threshold :
    ∀ (rs : List Reading) (st : QueueState), rs ≠ [] →
      ((st.heartRateBatch.length : Int) + rs.length = st.batchSize) →
      submitAll true rs st =
        { heartRateBatch := [], batchSize := st.batchSize,
          batchTimeoutActive := false,
          jobs := st.jobs ++ [st.heartRateBatch ++ rs] } := by
  intro rs
  induction rs with
  | nil => intro st h; exact absurd rfl h
  | cons r rest ih =>
    intro st _ hlen
    cases rest with
    | nil =>
      have hcond : st.batchSize ≤ (st.heartRateBatch.length : Int) + 1 := by
        simp at hlen
        omega
      have hne : st.heartRateBatch ++ [r] ≠ [] := by simp
      simp [submitAll, addHeartRateJob, flushHeartRateBatch, addHeartRateBatchJob,
        hcond, hne]
    | cons r2 rest2 =>
      have hcond : ¬ st.batchSize ≤ (st.heartRateBatch.length : Int) + 1 := by
        simp at hlen
        omega
      have hstep : submitAll true (r :: r2 :: rest2) st =
          submitAll true (r2 :: rest2) (addHeartRateJob true r st) := rfl
      have hadd : addHeartRateJob true r st =
          { st with heartRateBatch := st.heartRateBatch ++ [r],
                    batchTimeoutActive := true } := by
        simp [addHeartRateJob, hcond]
      rw [hstep, hadd, ih _ (by simp) (by simp at hlen ⊢; omega)]
      simp

/-- C6: from an empty buffer, submitting exactly `batchSize` readings in rapid
succession enqueues exactly one batch job, containing exactly the submitted
readings in order, and leaves the buffer empty. -/
theorem c6_threshold_flush_exactly_once (st : QueueState) (readings : List Reading)
    (h1 : st.heartRateBatch = []) (h2 : 1 ≤ st.batchSize)
    (h3 : (readings.length : Int) = st.batchSize) :
    (submitAll true readings st).jobs = st.jobs ++ [readings] ∧
    (submitAll true readings st).heartRateBatch = [] := by
  have hne : readings ≠ [] := by
    intro h
    subst h
    simp at h3
    omega
  have hx := submitAll_reaches_threshold readings st hne (by rw [h1]; simpa using h3)
  rw [hx]
  simp [h1]

def qtwo : QueueState := ⟨[], 2, false, []⟩

theorem c6_witness :
    (qtwo.heartRateBatch = [] ∧ 1 ≤ qtwo.batchSize ∧
      (([r60, r90].length : Int) = qtwo.batchSize)) ∧
    (submitAll true [r60, r90] qtwo).jobs = qtwo.jobs ++ [[r60, r90]] ∧
    (submitAll true [r60, r90] qtwo).heartRateBatch = [] :=
  ⟨⟨rfl, by decide, by decide⟩,
   c6_threshold_flush_exactly_once qtwo [r60, r90] rfl (by decide) (by decide)⟩

/-! ### C7 -/

/-- C7: an out-of-range threshold update fails with the range error before
mutating anything; an in-range update sets the threshold and immediately
flushes when the buffered count already meets it. -/
theorem c7_updateBatchSize_validation (newSize : Int) (ok : Bool) (st : QueueState) :
    (newSize < 1 ∨ newSize > MAX_BATCH_SIZE →
      updateBatchSize newSize ok st =
        .error ("Batch size must be between 1 and " ++ intToString MAX_BATCH_SIZE)) ∧
    (1 ≤ newSize → newSize ≤ MAX_BATCH_SIZE →
      ∃ st', updateBatchSize newSize ok st = .ok st' ∧
        st'.batchSize = newSize ∧
        ((st.heartRateBatch.length : Int) ≥ newSize →
          st'.heartRateBatch = [] ∧
          (ok = true → st'.jobs = st.jobs ++ [st.heartRateBatch])) ∧
        ((st.heartRateBatch.length : Int) < newSize →
          st'.heartRateBatch = st.heartRateBatch ∧ st'.jobs = st.jobs)) := by
  constructor
  · intro h
    simp [updateBatchSize, h]
  · intro h1 h2
    have hcond : ¬ (newSize < 1 ∨ newSize > MAX_BATCH_SIZE) := by
      push_neg
      exact ⟨by omega, h2⟩
    by_cases hge : (st.heartRateBatch.length : Int) ≥ newSize
    · have hne : st.heartRateBatch ≠ [] := by
        intro h
        rw [h] at hge
        simp at hge
        omega
      refine ⟨flushHeartRateBatch ok { st with batchSize := newSize }, ?_, ?_, ?_, ?_⟩
      · simp [updateBatchSize, hcond, hge]
      · cases ok <;> simp [flushHeartRateBatch, addHeartRateBatchJob, hne]
      · intro _
        cases ok <;> simp [flushHeartRateBatch, addHeartRateBatchJob, hne]
      · intro hlt
        omega
    · refine ⟨{ st with batchSize := newSize }, ?_, rfl, ?_, ?_⟩
      · simp [updateBatchSize, hcond, hge]
      · intro h
        exact absurd h hge
      · intro _
        exact ⟨rfl, rfl⟩

def qbuf : QueueState := ⟨[r60], 5, true, []⟩

theorem c7_witness :
    ((0 : Int) < 1 ∨ (0 : Int) > MAX_BATCH_SIZE) ∧
    updateBatchSize 0 true qbuf =
      .error ("Batch size must be between 1 and " ++ intToString MAX_BATCH_SIZE) ∧
    ((1 : Int) ≤ 1 ∧ (1 : Int) ≤ MAX_BATCH_SIZE) ∧
    (∃ st', updateBatchSize 1 true qbuf = .ok st' ∧
      st'.batchSize = 1 ∧
      ((qbuf.heartRateBatch.length : Int) ≥ 1 →
        st'.heartRateBatch = [] ∧
        (true = true → st'.jobs = qbuf.jobs ++ [qbuf.heartRateBatch])) ∧
      ((qbuf.heartRateBatch.length : Int) < 1 →
        st'.heartRateBatch = qbuf.heartRateBatch ∧ st'.jobs = qbuf.jobs)) :=
  ⟨by decide,
   (c7_updateBatchSize_validation 0 true qbuf).1 (by decide),
   ⟨by decide, by decide⟩,
   (c7_updateBatchSize_validation 1 true qbuf).2 (by decide) (by decide)⟩

/-! ### C8 -/

/-- C8, counterexample: when enqueueing the flushed batch fails, the swapped
out readings are gone — the accepted reading `r60` ends up in no enqueued job
and is no longer buffered (the `catch` in `flushHeartRateBatch` only logs). -/
theorem c8_counterexample_enqueue_failure_drops_reading :
    (addHeartRateJob false r60 ⟨[], 1, false, []⟩).jobs = [] ∧
    (addHeartRateJob false r60 ⟨[], 1, false, []⟩).heartRateBatch = [] := by
  decide

/-- One successful submission conserves the readings across jobs and buffer. -/
theorem addHeartRateJob_conserves (r : Reading) (st : QueueState) :
    (addHeartRateJob true r st).jobs.flatten ++ (addHeartRateJob true r st).heartRateBatch =
      st.jobs.flatten ++ (st.heartRateBatch ++ [r]) := by
  by_cases hc : st.batchSize ≤ (st.heartRateBatch.length : Int) + 1
  · have hne : st.heartRateBatch ++ [r] ≠ [] := by simp
    simp [addHeartRateJob, flushHeartRateBatch, addHeartRateBatchJob, hc, hne]
  · simp [addHeartRateJob, flushHeartRateBatch, addHeartRateBatchJob, hc]

/-- C8, amended: as long as every enqueue succeeds, every submitted reading is
contained exactly once across the enqueued batch jobs and the buffer — no
reading is dropped or duplicated across flush boundaries. -/
theorem c8_amended_no_drop_no_dup (readings : List Reading) (st : QueueState) :
    (submitAll true readings st).jobs.flatten ++
        (submitAll true readings st).heartRateBatch =
      st.jobs.flatten ++ st.heartRateBatch ++ readings := by
  induction readings generalizing st with
  | nil => simp [submitAll]
  | cons r rest ih =>
    have hstep : submitAll true (r :: rest) st =
        submitAll true rest (addHeartRateJob true r st) := rfl
    rw [hstep, ih (addHeartRateJob true r st)]
    rw [show (addHeartRateJob true r st).jobs.flatten ++
          (addHeartRateJob true r st).heartRateBatch ++ rest =
        ((addHeartRateJob true r st).jobs.flatten ++
          (addHeartRateJob true r st).heartRateBatch) ++ rest by simp]
    rw [addHeartRateJob_conserves]
    simp

/-! ### C9 -/

/-- The cache-entry invariant: min ≤ max, and both extrema carry the bpm and
timestamp of an actually observed reading. -/
def entryWitnessed (e : HeartRateAggregate) (obs : List Reading) : Prop :=
  e.min ≤ e.max ∧
  (∃ r ∈ obs, r.bpm = e.min ∧ r.timestamp = e.minTime) ∧
  (∃ r ∈ obs, r.bpm = e.max ∧ r.timestamp = e.maxTime)

/-- The invariant as a property of the whole store at one key: whatever
`getDailyMinMax` returns is witnessed by the observed readings. -/
def cacheInv (patientId : Int) (date : String) (store : RedisStore)
    (obs : List Reading) : Prop :=
  ∀ e, getDailyMinMax patientId date store = some e → entryWitnessed e obs

theorem entryWitnessed_mono {e : HeartRateAggregate} {obs obs' : List Reading}
    (hsub : ∀ r, r ∈ obs → r ∈ obs') (h : entryWitnessed e obs) :
    entryWitnessed e obs' := by
  obtain ⟨h1, ⟨rm, hm, hm2⟩, ⟨rx, hx, hx2⟩⟩ := h
  exact ⟨h1, ⟨rm, hsub _ hm, hm2⟩, ⟨rx, hsub _ hx, hx2⟩⟩

/-- The same invariant for the running extrema of the batch scan. -/
def extremaWitnessed (ex : Extrema) (L : List Reading) : Prop :=
  ex.minBpm ≤ ex.maxBpm ∧
  (∃ r ∈ L, r.bpm = ex.minBpm ∧ r.timestamp = ex.minTime) ∧
  (∃ r ∈ L, r.bpm = ex.maxBpm ∧ r.timestamp = ex.maxTime)

theorem extremaStep_witnessed {L : List Reading} {acc : Extrema} {r : Reading}
    (hacc : extremaWitnessed acc L) (hr : r ∈ L) :
    extremaWitnessed (extremaStep acc r) L := by
  obtain ⟨hle, hmin, hmax⟩ := hacc
  dsimp only [extremaStep]
  split_ifs with h1 h2 h3
  · exact ⟨le_refl _, ⟨r, hr, rfl, rfl⟩, ⟨r, hr, rfl, rfl⟩⟩
  · refine ⟨?_, ⟨r, hr, rfl, rfl⟩, hmax⟩
    dsimp only at h2 ⊢
    omega
  · refine ⟨?_, hmin, ⟨r, hr, rfl, rfl⟩⟩
    dsimp only at h3 ⊢
    omega
  · exact ⟨hle, hmin, hmax⟩

theorem extrema_foldl_witnessed {L : List Reading} :
    ∀ (rs : List Reading) (acc : Extrema), (∀ r ∈ rs, r ∈ L) →
      extremaWitnessed acc L → extremaWitnessed (rs.foldl extremaStep acc) L := by
  intro rs
  induction rs with
  | nil => intro acc _ h; exact h
  | cons r rest ih =>
    intro acc hsub hacc
    exact ih _ (fun x hx => hsub x (List.mem_cons_of_mem _ hx))
      (extremaStep_witnessed hacc (hsub r (List.mem_cons_self _ _)))

/-- C9: every cache operation of the pipeline — seeding, single-reading
update, batch reconciliation — preserves the invariant that the cached entry
has min ≤ max and that both extrema are the bpm/timestamp of an actually
observed reading. -/
theorem c9_cache_invariant_preserved (patientId : Int) (date : String)
    (bpm : Int) (ts : String) (readings obs : List Reading) (st : VitalsState)
    (h : cacheInv patientId date st.redis obs) :
    cacheInv patientId date (updateDailyMinMaxCache patientId date bpm ts st).1.redis
      (obs ++ [⟨patientId, bpm, ts⟩]) ∧
    cacheInv patientId date
      (updateDailyMinMaxCacheForBatch patientId date readings st).redis
      (obs ++ readings) := by
  constructor
  · cases hcur : getDailyMinMax patientId date st.redis with
    | none =>
      have hred : (updateDailyMinMaxCache patientId date bpm ts st).1.redis =
          setDailyMinMax patientId date bpm bpm ts ts st.ttlNow st.redis := by
        simp only [updateDailyMinMaxCache, hcur]
      intro e he
      rw [hred, getDailyMinMax_setDailyMinMax] at he
      obtain rfl : (⟨bpm, bpm, ts, ts⟩ : HeartRateAggregate) = e := Option.some.inj he
      exact ⟨le_refl _,
        ⟨⟨patientId, bpm, ts⟩, List.mem_append_right _ (List.mem_cons_self _ _), rfl, rfl⟩,
        ⟨⟨patientId, bpm, ts⟩, List.mem_append_right _ (List.mem_cons_self _ _), rfl, rfl⟩⟩
    | some cur =>
      have hw := h cur hcur
      by_cases hmin : bpm < cur.min
      · by_cases hmax : bpm > cur.max
        · exfalso
          have := hw.1
          omega
        · have hred : (updateDailyMinMaxCache patientId date bpm ts st).1.redis =
              updateDailyMin patientId date bpm ts st.ttlNow st.redis := by
            simp only [updateDailyMinMaxCache, hcur]
            simp [hmin, hmax]
          intro e he
          rw [hred, getDailyMinMax_updateDailyMin patientId date bpm ts st.ttlNow
            st.redis cur hcur] at he
          obtain rfl : (⟨bpm, cur.max, ts, cur.maxTime⟩ : HeartRateAggregate) = e :=
            Option.some.inj he
          refine ⟨by have := hw.1; dsimp; omega,
            ⟨⟨patientId, bpm, ts⟩, List.mem_append_right _ (List.mem_cons_self _ _), rfl, rfl⟩,
            ?_⟩
          exact (entryWitnessed_mono (fun r hr => List.mem_append_left _ hr) hw).2.2
      · by_cases hmax : bpm > cur.max
        · have hred : (updateDailyMinMaxCache patientId date bpm ts st).1.redis =
              updateDailyMax patientId date bpm ts st.ttlNow st.redis := by
            simp only [updateDailyMinMaxCache, hcur]
            simp [hmin, hmax]
          intro e he
          rw [hred, getDailyMinMax_updateDailyMax patientId date bpm ts st.ttlNow
            st.redis cur hcur] at he
          obtain rfl : (⟨cur.min, bpm, cur.minTime, ts⟩ : HeartRateAggregate) = e :=
            Option.some.inj he
          refine ⟨by have := hw.1; dsimp; omega, ?_,
            ⟨⟨patientId, bpm, ts⟩, List.mem_append_right _ (List.mem_cons_self _ _), rfl, rfl⟩⟩
          exact (entryWitnessed_mono (fun r hr => List.mem_append_left _ hr) hw).2.1
        · have hred : (updateDailyMinMaxCache patientId date bpm ts st).1.redis = st.redis := by
            simp only [updateDailyMinMaxCache, hcur]
            simp [hmin, hmax]
          intro e he
          rw [hred] at he
          exact entryWitnessed_mono (fun r hr => List.mem_append_left _ hr) (h e he)
  · cases readings with
    | nil =>
      intro e he
      exact entryWitnessed_mono (fun r hr => List.mem_append_left _ hr) (h e he)
    | cons r0 rest =>
      have hexw : extremaWitnessed
          ((r0 :: rest).foldl extremaStep ⟨r0.bpm, r0.bpm, r0.timestamp, r0.timestamp⟩)
          (obs ++ (r0 :: rest)) := by
        apply extrema_foldl_witnessed
        · intro r hr
          exact List.mem_append_right _ hr
        · exact ⟨le_refl _,
            ⟨r0, List.mem_append_right _ (List.mem_cons_self _ _), rfl, rfl⟩,
            ⟨r0, List.mem_append_right _ (List.mem_cons_self _ _), rfl, rfl⟩⟩
      cases hcur : getDailyMinMax patientId date st.redis with
      | none =>
        have hred : (updateDailyMinMaxCacheForBatch patientId date (r0 :: rest) st).redis =
            setDailyMinMax patientId date
              ((r0 :: rest).foldl extremaStep ⟨r0.bpm, r0.bpm, r0.timestamp, r0.timestamp⟩).minBpm
              ((r0 :: rest).foldl extremaStep ⟨r0.bpm, r0.bpm, r0.timestamp, r0.timestamp⟩).maxBpm
              ((r0 :: rest).foldl extremaStep ⟨r0.bpm, r0.bpm, r0.timestamp, r0.timestamp⟩).minTime
              ((r0 :: rest).foldl extremaStep ⟨r0.bpm, r0.bpm, r0.timestamp, r0.timestamp⟩).maxTime
              st.ttlNow st.redis := by
          simp only [updateDailyMinMaxCacheForBatch, hcur]
          rw [upsertHeartRateAggregate_redis]
        intro e he
        rw [hred, getDailyMinMax_setDailyMinMax] at he
        obtain rfl := Option.some.inj he
        obtain ⟨h1, h2, h3⟩ := hexw
        exact ⟨h1, h2, h3⟩
      | some cur =>
        have hw := h cur hcur
        obtain ⟨hex1, hex2, hex3⟩ := hexw
        set ex := (r0 :: rest).foldl extremaStep ⟨r0.bpm, r0.bpm, r0.timestamp, r0.timestamp⟩
          with hexdef
        by_cases hnew : ex.minBpm < cur.min ∨ ex.maxBpm > cur.max
        · have hred : (updateDailyMinMaxCacheForBatch patientId date (r0 :: rest) st).redis =
              setDailyMinMax patientId date
                (if ex.minBpm < cur.min then ex.minBpm else cur.min)
                (if ex.maxBpm > cur.max then ex.maxBpm else cur.max)
                (if ex.minBpm < cur.min then ex.minTime else cur.minTime)
                (if ex.maxBpm > cur.max then ex.maxTime else cur.maxTime)
                st.ttlNow st.redis := by
            simp only [updateDailyMinMaxCacheForBatch, hcur, ← hexdef]
            rw [if_pos hnew, upsertHeartRateAggregate_redis]
          intro e he
          rw [hred, getDailyMinMax_setDailyMinMax] at he
          obtain rfl := Option.some.inj he
          have hwmono := entryWitnessed_mono
            (fun r hr => List.mem_append_left (r0 :: rest) hr) hw
          refine ⟨?_, ?_, ?_⟩
          · have := hw.1
            by_cases hm1 : ex.minBpm < cur.min <;> by_cases hm2 : ex.maxBpm > cur.max <;>
              simp [hm1, hm2] <;> omega
          · by_cases hm1 : ex.minBpm < cur.min
            · simpa [hm1] using hex2
            · simpa [hm1] using hwmono.2.1
          · by_cases hm2 : ex.maxBpm > cur.max
            · simpa [hm2] using hex3
            · simpa [hm2] using hwmono.2.2
        · have hred : (updateDailyMinMaxCacheForBatch patientId date (r0 :: rest) st).redis =
              st.redis := by
            simp only [updateDailyMinMaxCacheForBatch, hcur, ← hexdef]
            rw [if_neg hnew, upsertHeartRateAggregate_redis]
          intro e he
          rw [hred] at he
          exact entryWitnessed_mono (fun r hr => List.mem_append_left _ hr) (h e he)

theorem c9_witness :
    cacheInv 1 "2024-01-15" vempty.redis [] ∧
    cacheInv 1 "2024-01-15"
      (updateDailyMinMaxCache 1 "2024-01-15" 72 "2024-01-15T12:00:00.000Z" vempty).1.redis
      ([] ++ [⟨1, 72, "2024-01-15T12:00:00.000Z"⟩]) ∧
    cacheInv 1 "2024-01-15"
      (updateDailyMinMaxCacheForBatch 1 "2024-01-15" [r60] vempty).redis
      ([] ++ [r60]) := by
  have base : cacheInv 1 "2024-01-15" vempty.redis [] := by
    intro e he
    simp [getDailyMinMax, vempty, emptyRedis, jsTruthy] at he
  obtain ⟨h1, h2⟩ := c9_cache_invariant_preserved 1 "2024-01-15" 72
    "2024-01-15T12:00:00.000Z" [r60] [] vempty base
  exact ⟨base, h1, h2⟩
